import Mathlib

/-!
Verification of the prplOS patch-management monitoring scripts
(`prplos-monitoring-dashboard.py`, the "dashboard" variant, and
`prplos-monitoring-simple.py`, the "simple" variant) against their
natural-language specification.

Modelling conventions:
* Python floats are modelled as rationals (`ℚ`); the numeric values
  occurring in these scripts (sums, means, min/max, divisions) are exact
  field arithmetic, so `ℚ` is adequate.  `np.std` returns a square root,
  which is irrational in general; we therefore carry its square
  (`std_dev_sq`, the population variance) in report records.
* Python exceptions are modelled with `Option`: a function that can raise
  inside a `try` block returns `none` for the raising executions.
* File-system and subprocess interaction is modelled by passing the file
  contents / command outputs as explicit parameters.
* Python library primitives used by the scripts (`float(...)`,
  `str.split`, `str.strip`) are modelled by executable Lean functions
  below; they are models of the CPython builtins restricted to the plain
  decimal inputs these scripts deal with.
-/

/- `Rat.add`, `Rat.sub`, `Rat.mul` and `Rat.inv` are `@[irreducible]` in
Batteries; make them unfoldable here so that concrete rational
computations in witnesses can be discharged by `decide`. -/
attribute [local semireducible] Rat.add Rat.sub Rat.mul Rat.inv

/-- Model of Python `str.strip()`: remove leading and trailing whitespace. -/
def pyStrip (s : String) : String :=
  List.asString (((s.data.dropWhile Char.isWhitespace).reverse.dropWhile Char.isWhitespace).reverse)

/-- Numeric value of a decimal digit character. -/
def digitVal (c : Char) : Nat := c.toNat - 48

/-- Value of a big-endian list of decimal digit characters. -/
def digitsToNat (cs : List Char) : Nat := cs.foldl (fun a c => 10 * a + digitVal c) 0

/-- Model of the Python builtin `float(s)` on plain decimal literals:
optional surrounding whitespace, optional sign, digits with an optional
single decimal point (at least one digit overall).  Returns `none` when
`float` would raise `ValueError` (the scripts only ever feed it plain
decimal text such as timing-log lines). -/
def parseFloat (s : String) : Option ℚ :=
  let cs := ((s.data.dropWhile Char.isWhitespace).reverse.dropWhile Char.isWhitespace).reverse
  let p : ℚ × List Char :=
    match cs with
    | '+' :: r => (1, r)
    | '-' :: r => (-1, r)
    | r => (1, r)
  let ip := p.2.takeWhile Char.isDigit
  let rest := p.2.dropWhile Char.isDigit
  let q : List Char × List Char :=
    match rest with
    | '.' :: r => (r.takeWhile Char.isDigit, r.dropWhile Char.isDigit)
    | r => ([], r)
  if q.2 = [] ∧ (ip ≠ [] ∨ q.1 ≠ []) then
    some (p.1 * ((digitsToNat ip : ℚ) + (digitsToNat q.1 : ℚ) / (10 : ℚ) ^ q.1.length))
  else none

/-- Model of Python `str.split(c)` (single-character separator), on the
character list of the string: `"a:b:c".split(':') = ["a","b","c"]`,
`"".split(':') = [""]`. -/
def splitCharAux (c : Char) : List Char → List (List Char)
  | [] => [[]]
  | x :: xs =>
    let r := splitCharAux c xs
    if x = c then [] :: r
    else
      match r with
      | [] => [[x]]
      | h :: t => (x :: h) :: t

/-- Model of Python `s.split(c)`. -/
def pySplit (s : String) (c : Char) : List String :=
  (splitCharAux c s.data).map List.asString

/-- The `elapsed_time` extraction used by `update_plots` when pivoting the
benchmark table (`prplos-monitoring-dashboard.py` line 281):
`lambda x: float(x.iloc[0].split(':')[1]) if ':' in x.iloc[0] else float(x.iloc[0])`,
applied here to a single cell value.  `none` models the `ValueError`
escaping from `float`. -/
def elapsedExtract (s : String) : Option ℚ :=
  if s.data.contains ':' then parseFloat ((pySplit s ':').getD 1 "")
  else parseFloat s

/-! ## Timing Log Reader

`parse_timing_logs` in both variants reads, per method, the file
`patch_timing_<method>.log` and runs
`times = [float(line.strip()) for line in f if line.strip()]`
inside a `try` block (dashboard lines 96-114, simple lines 53-66).
A file is modelled as `FileState`: absent (`os.path.exists` is false and
the file is skipped), unreadable (`open` raises, caught by the `except`),
or present with a list of lines. -/

/-- State of one timing-log file as seen by `parse_timing_logs`. -/
inductive FileState where
  | missing
  | unreadable
  | content (lines : List String)
deriving DecidableEq

/-- The list comprehension's parsing pass: one `float(line.strip())` per
line, failing the whole read (`none`, i.e. the `ValueError` reaching the
`except`) on the first malformed line. -/
def parseAll : List String → Option (List ℚ)
  | [] => some []
  | l :: ls =>
    match parseFloat (pyStrip l) with
    | none => none
    | some v =>
      match parseAll ls with
      | none => none
      | some vs => some (v :: vs)

/-- `[float(line.strip()) for line in f if line.strip()]`: blank lines are
filtered out, every remaining line must parse. -/
def readTimingFile (lines : List String) : Option (List ℚ) :=
  parseAll (lines.filter (fun l => !(pyStrip l).isEmpty))

/-- Reading one method's timing log: `none` when the method ends up absent
from `timing_data` (missing file, unreadable file, or a parse error caught
by the per-file `except`). -/
def readTiming : FileState → Option (List ℚ)
  | FileState.missing => none
  | FileState.unreadable => none
  | FileState.content ls => readTimingFile ls

/-- Net effect, per method, of one dashboard tick on `self.patch_metrics`:
`parse_timing_logs` (lines 105-112) only puts successfully read methods
into `timing_data`, and `update_plots` (lines 228-230) then does
`self.patch_metrics[method] = times` for exactly those methods. -/
def updateMethodDash (old : List ℚ) (fs : FileState) : List ℚ :=
  match readTiming fs with
  | none => old
  | some ts => ts

/-- Net effect, per method, of `parse_timing_logs` in the simple variant
(lines 57-66): as the dashboard, but additionally guarded by `if times:`,
so an empty parse result leaves the stored series unchanged. -/
def updateMethodSimple (old : List ℚ) (fs : FileState) : List ℚ :=
  match readTiming fs with
  | none => old
  | some ts => if ts.isEmpty then old else ts

/-! ## Metrics Sampler

`collect_system_metrics` (dashboard lines 60-94) shells out four commands.
Each command either fails (`subprocess.check_output` raises, modelled by
`none`) or produces output text whose `float(...)` parse may itself raise.
CPU and memory are computed directly under the single outer `try`; disk
and network each have their own inner `try` that substitutes `0.0`. -/

/-- One system sample (the dict built at lines 85-91).  The source calls
the last two fields `disk_io` and `network_io`; timestamps are modelled as
rational instants. -/
structure Sample where
  timestamp : ℚ
  cpu_usage : ℚ
  memory_usage : ℚ
  disk_rate : ℚ
  network_rate : ℚ
deriving DecidableEq

/-- `collect_system_metrics` of the dashboard variant.  `none` models the
outer `except` path (line 92-94: print the error, return `None`). -/
def collect_system_metrics (now : ℚ) (cpuOut memOut diskOut netOut : Option String) :
    Option Sample :=
  match cpuOut.bind parseFloat with
  | none => none
  | some cpu =>
    match memOut.bind parseFloat with
    | none => none
    | some memory =>
      let disk := (diskOut.bind parseFloat).getD 0
      let network := (netOut.bind parseFloat).getD 0
      some ⟨now, cpu, memory, disk, network⟩

/-- One metric of the simple variant's sampler (lines 37 and 42):
`float(result.stdout.strip()) if result.stdout.strip() else 0.0`.
`subprocess.run` with `shell=True` does not raise on a failing command;
a failed command yields empty stdout, substituted by the sentinel `0.0`
per metric.  `none` models `float` raising on non-empty malformed
output. -/
def simpleMetric (out : String) : Option ℚ :=
  if (pyStrip out).isEmpty then some 0 else parseFloat (pyStrip out)

/-- `collect_system_metrics` of the simple variant (lines 31-51): CPU and
memory are the only metrics; both conditionals sit under one outer `try`,
so a `float` parse failure on either reaches the `except` (`none`:
`return False`, nothing is appended to the state). -/
def collect_system_metrics_simple (cpuOut memOut : String) : Option (ℚ × ℚ) :=
  match simpleMetric cpuOut with
  | none => none
  | some cpu =>
    match simpleMetric memOut with
    | none => none
    | some memory => some (cpu, memory)

/-! ## Rolling window (dashboard `update_plots`, lines 216-226)

For each queued system sample, `update_plots` appends each metric value to
the matching list in `self.system_metrics` and then truncates every list
to its last 100 entries (`self.system_metrics[key][-100:]`). -/

/-- Append one value and keep only the last 100 entries. -/
def updateWindow {α : Type} (l : List α) (v : α) : List α :=
  let l2 := l ++ [v]
  if l2.length > 100 then l2.drop (l2.length - 100) else l2

/-- The five lists of `self.system_metrics` (the source calls the last two
`disk_io` and `network_io`). -/
structure SysWindow where
  timestamp : List ℚ
  cpu_usage : List ℚ
  memory_usage : List ℚ
  disk_rate : List ℚ
  network_rate : List ℚ
deriving DecidableEq

/-- Processing one `('system', metrics)` queue item in `update_plots`. -/
def processSystem (w : SysWindow) (m : Sample) : SysWindow :=
  ⟨updateWindow w.timestamp m.timestamp,
   updateWindow w.cpu_usage m.cpu_usage,
   updateWindow w.memory_usage m.memory_usage,
   updateWindow w.disk_rate m.disk_rate,
   updateWindow w.network_rate m.network_rate⟩


/-! ## Aggregation helpers

`np.mean` is sum/length, `np.min`/`np.max` fold the comparison over the
list, `np.std` is the square root of the population variance (we carry
the variance itself, `varD`, since the square root is irrational).  The
`*D` functions are total with a default for `[]`; the scripts only apply
them to series guarded to be non-empty, and the one unguarded use
(`np.max` on an empty list raises) is modelled separately by `mkSysStats`
returning `none`. -/

/-- `sum(l)`. -/
def listSum (l : List ℚ) : ℚ := l.foldl (fun a x => a + x) 0

/-- `np.mean(l)` / `sum(l)/len(l)` for non-empty `l`. -/
def meanD (l : List ℚ) : ℚ := listSum l / (l.length : ℚ)

/-- `np.min(l)` / `min(l)` for non-empty `l`. -/
def minD : List ℚ → ℚ
  | [] => 0
  | x :: xs => xs.foldl min x

/-- `np.max(l)` / `max(l)` for non-empty `l`. -/
def maxD : List ℚ → ℚ
  | [] => 0
  | x :: xs => xs.foldl max x

/-- The square of `np.std(l)` (population variance) for non-empty `l`. -/
def varD (l : List ℚ) : ℚ :=
  listSum (l.map (fun x => (x - meanD l) ^ 2)) / (l.length : ℚ)

/-- Model of Python `min(items, key=f)`: the first element attaining the
minimal key (the accumulator is replaced only on a strictly smaller key),
`none` on an empty list (where Python raises, guarded at all call sites). -/
def pythonMinBy {α : Type} (f : α → ℚ) : List α → Option α
  | [] => none
  | x :: xs => some (xs.foldl (fun b y => if f y < f b then y else b) x)

/-- Fixed-width, zero-padded big-endian decimal digits of `n` (used to
model `strftime` fields and the `%.2f`/`:.2f` fractional part). -/
def padList : Nat → Nat → List Char
  | 0, _ => []
  | w + 1, n => padList w (n / 10) ++ [Nat.digitChar (n % 10)]

/-- Model of Python `f"{q:.2f}"` on our rational stand-in for floats:
round `q` to two decimal places and print with exactly two fractional
digits.  (CPython rounds the underlying double half-to-even; for the
exact values these scripts print the two agree.) -/
def fmt2 (q : ℚ) : String :=
  let m : ℤ := round (q * 100)
  let sign := if m < 0 then "-" else ""
  let a := m.natAbs
  sign ++ toString (a / 100) ++ "." ++ List.asString (padList 2 (a % 100))

/-! ## Dashboard Aggregator / Report Writer (`export_report`, lines 341-393)

The report dict has exactly the four top-level keys `timestamp`,
`system_metrics_summary`, `patch_performance` and `recommendations`,
modelled by the four fields of `Report`.  `system_metrics_summary` is the
empty dict `{}` unless CPU samples exist (modelled by `Option`), and
`patch_performance` is a mapping in insertion order (modelled by an
association list). -/

/-- Per-metric summary dict (lines 356-365): keys `average`, `max`, `min`. -/
structure SysStats where
  average : ℚ
  max : ℚ
  min : ℚ
deriving DecidableEq

/-- The `system_metrics_summary` value when CPU samples exist. -/
structure SysSummary where
  cpu : SysStats
  memory : SysStats
deriving DecidableEq

/-- Per-method performance dict (lines 371-377): keys `average`, `min`,
`max`, `std_dev`, `samples`; `std_dev_sq` carries the square of the
`std_dev` value written by the source. -/
structure PerfStats where
  average : ℚ
  min : ℚ
  max : ℚ
  std_dev_sq : ℚ
  samples : Nat
deriving DecidableEq

/-- The exported report (lines 346-351). -/
structure Report where
  timestamp : String
  system_metrics_summary : Option SysSummary
  patch_performance : List (String × PerfStats)
  recommendations : List String
deriving DecidableEq

/-- `{'average': float(np.mean(l)), 'max': float(np.max(l)), 'min':
float(np.min(l))}`; `none` models `np.max`/`np.min` raising on an empty
list (reachable only for the memory list, whose guard is the CPU list). -/
def mkSysStats (l : List ℚ) : Option SysStats :=
  if l.isEmpty then none else some ⟨meanD l, maxD l, minD l⟩

/-- The `patch_performance` mapping (lines 369-377): methods with an empty
series are skipped by the `if times:` guard. -/
def perfList (patch : List (String × List ℚ)) : List (String × PerfStats) :=
  patch.filterMap (fun p =>
    if p.2.isEmpty then none
    else some (p.1, ⟨meanD p.2, minD p.2, maxD p.2, varD p.2, p.2.length⟩))

/-- The recommendation string of line 383-386. -/
def recString (m : String) (avg : ℚ) : String :=
  "Use " ++ m ++ " method for optimal performance (avg: " ++ fmt2 avg ++ "s)"

/-- The `recommendations` list (lines 380-386): empty unless
`patch_performance` is non-empty, in which case it holds exactly one
recommendation for `min(report['patch_performance'].items(),
key=lambda x: x[1]['average'])[0]`. -/
def recsOf (perf : List (String × PerfStats)) : List String :=
  match pythonMinBy (fun p => p.2.average) perf with
  | none => []
  | some best => [recString best.1 best.2.average]

/-- `export_report` (dashboard, lines 341-393), as a function of the
collected state: CPU/memory windows, the `patch_metrics` mapping in
insertion order, and the `datetime.now().isoformat()` string.  `none`
models an exception escaping the call. -/
def export_report (cpu mem : List ℚ) (patch : List (String × List ℚ))
    (now : String) : Option Report :=
  if cpu.isEmpty then
    some ⟨now, none, perfList patch, recsOf (perfList patch)⟩
  else
    match mkSysStats cpu, mkSysStats mem with
    | some c, some m => some ⟨now, some ⟨c, m⟩, perfList patch, recsOf (perfList patch)⟩
    | _, _ => none

/-- The "best performing method" of `update_summary` (lines 323-327):
`avg_times = {m: np.mean(t) for m, t in self.patch_metrics.items() if t}`
then `min(avg_times, key=avg_times.get)`, `none` when `avg_times` is
empty. -/
def bestMethodSummary (patch : List (String × List ℚ)) : Option String :=
  let avg_times := (patch.filter (fun p => !p.2.isEmpty)).map (fun p => (p.1, meanD p.2))
  (pythonMinBy (fun p => p.2) avg_times).map (fun p => p.1)

/-! ## Simple-variant Report Writer (`save_report`, lines 122-148) -/

/-- The `system_metrics` dict of the simple report (lines 126-130): the
averages are always present, `0` when the series is empty. -/
structure SimpleSys where
  samples : Nat
  cpu_average : ℚ
  memory_average : ℚ
deriving DecidableEq

/-- Per-method dict of the simple report (lines 136-141). -/
structure SimplePerf where
  average : ℚ
  min : ℚ
  max : ℚ
  count : Nat
deriving DecidableEq

/-- The simple variant's report object (lines 124-141). -/
structure SimpleReport where
  timestamp : String
  system_metrics : SimpleSys
  patch_performance : List (String × SimplePerf)
deriving DecidableEq

/-- `save_report` of the simple variant (lines 122-141), as a function of
the collected state.  It is total: every division is guarded by a
non-emptiness conditional. -/
def save_report (timestamps : List String) (cpu mem : List ℚ)
    (patch : List (String × List ℚ)) (now : String) : SimpleReport :=
  ⟨now,
   ⟨timestamps.length,
    if cpu.isEmpty then 0 else listSum cpu / (cpu.length : ℚ),
    if mem.isEmpty then 0 else listSum mem / (mem.length : ℚ)⟩,
   patch.filterMap (fun p =>
     if p.2.isEmpty then none
     else some (p.1, ⟨listSum p.2 / (p.2.length : ℚ), minD p.2, maxD p.2, p.2.length⟩))⟩

/-! ## Report file names

Both variants name the report file with
`datetime.now().strftime('%Y%m%d_%H%M%S')` (dashboard line 344, simple
line 143) and then `open(filename, 'w')`, which truncates any existing
file of the same name.  `DateTime` models the instant returned by
`datetime.now()`; `strftime('%Y%m%d_%H%M%S')` zero-pads each field and
drops the microseconds. -/

/-- A `datetime.now()` instant.  `microsecond` is carried because two
distinct calls within the same second differ only there. -/
structure DateTime where
  year : Nat
  month : Nat
  day : Nat
  hour : Nat
  minute : Nat
  second : Nat
  microsecond : Nat
deriving DecidableEq

/-- Field bounds under which `strftime`'s zero-padding is faithful. -/
def DateTime.Valid (t : DateTime) : Prop :=
  t.year < 10000 ∧ t.month < 100 ∧ t.day < 100 ∧ t.hour < 100 ∧
    t.minute < 100 ∧ t.second < 100

/-- The six fields `strftime('%Y%m%d_%H%M%S')` depends on. -/
def stampFields (t : DateTime) : Nat × Nat × Nat × Nat × Nat × Nat :=
  (t.year, t.month, t.day, t.hour, t.minute, t.second)

/-- Character list of `strftime('%Y%m%d_%H%M%S')`. -/
def stampChars (t : DateTime) : List Char :=
  padList 4 t.year ++ (padList 2 t.month ++ (padList 2 t.day ++
    ('_' :: (padList 2 t.hour ++ (padList 2 t.minute ++ padList 2 t.second)))))

/-- `datetime.now().strftime('%Y%m%d_%H%M%S')`. -/
def stamp (t : DateTime) : String := List.asString (stampChars t)

/-- Dashboard report path, line 344. -/
def analysisReportFilename (dir : String) (t : DateTime) : String :=
  dir ++ "/analysis_report_" ++ stamp t ++ ".json"

/-- Simple-variant report path, line 143. -/
def monitorReportFilename (dir : String) (t : DateTime) : String :=
  dir ++ "/monitor_report_" ++ stamp t ++ ".json"

/-! ## Theorems -/

/-- For a two-element list, position 1 is the last position. -/
theorem getD_one_eq_getLastD {α : Type} (l : List α) (d : α) (h : l.length = 2) :
    l.getD 1 d = l.getLastD d := by
  match l, h with
  | [a, b], _ => rfl

/-- C1 counterexample: for `"a:1.5:4.5"` (more than one colon) the
extraction takes the field between the first and second colon, `1.5`, not
the portion after the last colon, `4.5`. -/
theorem elapsed_extract_not_last_colon :
    elapsedExtract "a:1.5:4.5" = some (3/2)
    ∧ parseFloat ((pySplit "a:1.5:4.5" ':').getLastD "") = some (9/2)
    ∧ ((3 : ℚ)/2 ≠ 9/2) := by
  refine ⟨by decide, by decide, by decide⟩

/-- C1 (amended): for every `elapsed_time` string containing exactly one
colon, the numeric extraction used during aggregation yields the float
parsed from the portion of the string after that (last) colon. -/
theorem elapsed_extract_single_colon (s : String)
    (h1 : s.data.contains ':' = true) (h2 : (pySplit s ':').length = 2) :
    elapsedExtract s = parseFloat ((pySplit s ':').getLastD "") := by
  unfold elapsedExtract
  rw [if_pos h1, getD_one_eq_getLastD _ _ h2]

/-- C1 witness: `"method:4.5"` has a single colon, the extraction agrees
with the after-the-last-colon read, and it yields `4.5`. -/
theorem elapsed_extract_single_colon_witness :
    ("method:4.5".data.contains ':' = true)
    ∧ (pySplit "method:4.5" ':').length = 2
    ∧ elapsedExtract "method:4.5" = parseFloat ((pySplit "method:4.5" ':').getLastD "")
    ∧ elapsedExtract "method:4.5" = some (9/2) :=
  ⟨by decide, by decide, elapsed_extract_single_colon "method:4.5" (by decide) (by decide),
   by decide⟩

/-- A single unparsable line makes the whole comprehension raise. -/
theorem parseAll_eq_none_of_mem {ls : List String} {x : String}
    (hmem : x ∈ ls) (hx : parseFloat (pyStrip x) = none) : parseAll ls = none := by
  induction ls with
  | nil => cases hmem
  | cons y ys ih =>
    rcases List.mem_cons.mp hmem with rfl | hmem2
    · simp only [parseAll, hx]
    · simp only [parseAll, ih hmem2]
      cases parseFloat (pyStrip y) <;> rfl

/-- C3: a timing log containing a malformed non-empty line anywhere (in
particular after lines that parse as floats) makes the re-read fail inside
the per-file handler; in both variants the previously stored series is
left unchanged and no duration from the partially-read file is used. -/
theorem malformed_line_retains_previous_series (old : List ℚ)
    (pre post : List String) (bad : String)
    (hne : (pyStrip bad).isEmpty = false)
    (hbad : parseFloat (pyStrip bad) = none) :
    updateMethodDash old (FileState.content (pre ++ bad :: post)) = old
    ∧ updateMethodSimple old (FileState.content (pre ++ bad :: post)) = old := by
  have hmem : bad ∈ (pre ++ bad :: post).filter (fun l => !(pyStrip l).isEmpty) :=
    List.mem_filter.mpr ⟨by simp, by rw [hne]; rfl⟩
  have hnone : readTimingFile (pre ++ bad :: post) = none :=
    parseAll_eq_none_of_mem hmem hbad
  exact ⟨by simp [updateMethodDash, readTiming, hnone],
         by simp [updateMethodSimple, readTiming, hnone]⟩

/-- C3 witness: two valid lines followed by the malformed line `"oops"`;
the stored series `[7/2]` survives the re-read in both variants. -/
theorem malformed_line_retains_previous_series_witness :
    updateMethodDash [7/2] (FileState.content (["1.0", "2.0"] ++ "oops" :: [])) = [7/2]
    ∧ updateMethodSimple [7/2] (FileState.content (["1.0", "2.0"] ++ "oops" :: [])) = [7/2] :=
  malformed_line_retains_previous_series [7/2] ["1.0", "2.0"] [] "oops" (by decide) (by decide)

/-- C10: the simple variant's `parse_timing_logs` never replaces a stored
series with an empty one: a missing or unreadable file leaves it
unchanged, in general the new value is either the old one or a non-empty
freshly parsed series, and the result is empty only if the old series
already was. -/
theorem simple_parse_never_empties_series (old : List ℚ) (fs : FileState) :
    updateMethodSimple old FileState.missing = old
    ∧ updateMethodSimple old FileState.unreadable = old
    ∧ (updateMethodSimple old fs = old
       ∨ ∃ ts, readTiming fs = some ts ∧ ts ≠ [] ∧ updateMethodSimple old fs = ts)
    ∧ (updateMethodSimple old fs = [] → old = []) := by
  refine ⟨rfl, rfl, ?_, ?_⟩ <;> unfold updateMethodSimple <;> cases h : readTiming fs with
  | none => first
    | exact Or.inl rfl
    | exact fun he => he
  | some ts =>
    cases hts : ts.isEmpty with
    | true => first
      | exact Or.inl (by simp [hts])
      | intro he; simpa [hts] using he
    | false => first
      | exact Or.inr ⟨ts, rfl, by simpa using hts, by simp [hts]⟩
      | intro he; simp [hts] at he; simp [he] at hts

/-- C10 witness: a file holding only blank lines leaves the stored series
`[1]` unchanged. -/
theorem simple_parse_never_empties_series_witness :
    updateMethodSimple [1] FileState.missing = [1]
    ∧ updateMethodSimple [1] FileState.unreadable = [1]
    ∧ (updateMethodSimple [1] (FileState.content ["", "  "]) = [1]
       ∨ ∃ ts, readTiming (FileState.content ["", "  "]) = some ts ∧ ts ≠ []
           ∧ updateMethodSimple [1] (FileState.content ["", "  "]) = ts)
    ∧ (updateMethodSimple [1] (FileState.content ["", "  "]) = [] → [1] = ([] : List ℚ)) :=
  simple_parse_never_empties_series [1] (FileState.content ["", "  "])

/-- C4 counterexample: in the dashboard variant, when the CPU command
output fails to parse, the whole sample is dropped (`None`): the
successfully collected memory value `42.0` is not retained, contradicting
per-metric independence; in the simple variant a CPU output that fails to
parse likewise aborts the sample instead of being substituted. -/
theorem cpu_failure_drops_whole_sample :
    collect_system_metrics 0 (some "abc") (some "42.0") (some "1.0") (some "2.0") = none
    ∧ (¬ ∃ s : Sample,
        collect_system_metrics 0 (some "abc") (some "42.0") (some "1.0") (some "2.0") = some s
        ∧ s.memory_usage = 42)
    ∧ collect_system_metrics_simple "abc" "42.0" = none := by
  have hnone : collect_system_metrics 0 (some "abc") (some "42.0") (some "1.0") (some "2.0")
      = none := by decide
  refine ⟨hnone, ?_, by decide⟩
  rintro ⟨s, hs, -⟩
  rw [hnone] at hs
  cases hs

/-- C4 (amended): in the dashboard variant only the disk and network
metrics are collected independently, with `0.0` substituted on their
failure while the other metrics keep their collected values, and a CPU or
memory collection failure aborts the entire sample; in the simple variant
(which collects only CPU and memory) a failed command yields empty output
and is substituted by `0.0` per metric without failing the other metric,
while a command output that fails to parse aborts the whole sample. -/
theorem metric_collection_partial_independence :
    (∀ (now : ℚ) (cpuOut memOut diskOut netOut : Option String) (c m : ℚ),
        cpuOut.bind parseFloat = some c → memOut.bind parseFloat = some m →
        collect_system_metrics now cpuOut memOut diskOut netOut =
          some ⟨now, c, m, (diskOut.bind parseFloat).getD 0, (netOut.bind parseFloat).getD 0⟩)
    ∧ (∀ (now : ℚ) (cpuOut memOut diskOut netOut : Option String),
        cpuOut.bind parseFloat = none ∨ memOut.bind parseFloat = none →
        collect_system_metrics now cpuOut memOut diskOut netOut = none)
    ∧ (∀ (cpuOut memOut : String) (c m : ℚ),
        simpleMetric cpuOut = some c → simpleMetric memOut = some m →
        collect_system_metrics_simple cpuOut memOut = some (c, m))
    ∧ (∀ (cpuOut memOut : String) (m : ℚ),
        (pyStrip cpuOut).isEmpty = true → simpleMetric memOut = some m →
        collect_system_metrics_simple cpuOut memOut = some (0, m))
    ∧ (∀ (cpuOut memOut : String) (c : ℚ),
        simpleMetric cpuOut = some c → (pyStrip memOut).isEmpty = true →
        collect_system_metrics_simple cpuOut memOut = some (c, 0))
    ∧ (∀ (cpuOut memOut : String),
        simpleMetric cpuOut = none ∨ simpleMetric memOut = none →
        collect_system_metrics_simple cpuOut memOut = none) := by
  refine ⟨?_, ?_, ?_, ?_, ?_, ?_⟩
  · intro now cpuOut memOut diskOut netOut c m hc hm
    simp [collect_system_metrics, hc, hm]
  · intro now cpuOut memOut diskOut netOut h
    rcases h with h | h
    · simp [collect_system_metrics, h]
    · cases hc : cpuOut.bind parseFloat <;> simp [collect_system_metrics, hc, h]
  · intro cpuOut memOut c m hc hm
    simp [collect_system_metrics_simple, hc, hm]
  · intro cpuOut memOut m hc hm
    have hc0 : simpleMetric cpuOut = some 0 := by simp [simpleMetric, hc]
    simp [collect_system_metrics_simple, hc0, hm]
  · intro cpuOut memOut c hc hm
    have hm0 : simpleMetric memOut = some 0 := by simp [simpleMetric, hm]
    simp [collect_system_metrics_simple, hc, hm0]
  · intro cpuOut memOut h
    rcases h with h | h
    · simp [collect_system_metrics_simple, h]
    · cases hc : simpleMetric cpuOut <;> simp [collect_system_metrics_simple, hc, h]

/-- C4 witness: dashboard — absent disk command and malformed network
output are replaced by `0.0` while CPU/memory keep their values, and a
failed CPU command drops the sample; simple variant — an empty CPU output
is substituted `0.0` while memory keeps `55.0`, an empty memory output is
substituted `0.0` while CPU keeps `1.5`, and a malformed CPU output drops
the sample. -/
theorem metric_collection_partial_independence_witness :
    collect_system_metrics 0 (some "1.5") (some "2.5") none (some "zz")
      = some ⟨0, 3/2, 5/2, 0, 0⟩
    ∧ collect_system_metrics 0 none (some "2.5") (some "1") (some "2") = none
    ∧ collect_system_metrics_simple "" "55.0" = some (0, 55)
    ∧ collect_system_metrics_simple "1.5" " " = some (3/2, 0)
    ∧ collect_system_metrics_simple "abc" "42.0" = none :=
  ⟨(metric_collection_partial_independence.1 0 (some "1.5") (some "2.5") none (some "zz")
      (3/2) (5/2) (by decide) (by decide)).trans (by decide),
   metric_collection_partial_independence.2.1 0 none (some "2.5") (some "1") (some "2")
      (Or.inl rfl),
   metric_collection_partial_independence.2.2.2.1 "" "55.0" 55 (by decide) (by decide),
   metric_collection_partial_independence.2.2.2.2.1 "1.5" " " (3/2) (by decide) (by decide),
   metric_collection_partial_independence.2.2.2.2.2 "abc" "42.0" (Or.inl (by decide))⟩

/-- Length of the window after one append-and-truncate step. -/
theorem updateWindow_length {α : Type} (l : List α) (v : α) :
    (updateWindow l v).length = min (l.length + 1) 100 := by
  unfold updateWindow
  dsimp only
  split
  · rename_i h
    rw [List.length_drop]
    simp only [List.length_append, List.length_cons, List.length_nil] at h ⊢
    omega
  · rename_i h
    simp only [List.length_append, List.length_cons, List.length_nil] at h ⊢
    omega

/-- The truncated window is a suffix of the appended list: the retained
entries are the most recent ones, in order. -/
theorem updateWindow_suffix {α : Type} (l : List α) (v : α) :
    updateWindow l v <:+ l ++ [v] := by
  unfold updateWindow
  dsimp only
  split
  · exact List.drop_suffix _ _
  · exact List.suffix_refl _

/-- C6: after processing a queued system sample, each of the five stored
metric lists has length at most 100 (exactly `min (old+1) 100`) and is a
suffix of the old list with the new value appended — the oldest samples
are the ones evicted and the retained entries keep their original order. -/
theorem window_bounded_oldest_evicted (w : SysWindow) (m : Sample) :
    ((processSystem w m).timestamp.length = min (w.timestamp.length + 1) 100
      ∧ (processSystem w m).timestamp.length ≤ 100
      ∧ (processSystem w m).timestamp <:+ w.timestamp ++ [m.timestamp])
    ∧ ((processSystem w m).cpu_usage.length = min (w.cpu_usage.length + 1) 100
      ∧ (processSystem w m).cpu_usage.length ≤ 100
      ∧ (processSystem w m).cpu_usage <:+ w.cpu_usage ++ [m.cpu_usage])
    ∧ ((processSystem w m).memory_usage.length = min (w.memory_usage.length + 1) 100
      ∧ (processSystem w m).memory_usage.length ≤ 100
      ∧ (processSystem w m).memory_usage <:+ w.memory_usage ++ [m.memory_usage])
    ∧ ((processSystem w m).disk_rate.length = min (w.disk_rate.length + 1) 100
      ∧ (processSystem w m).disk_rate.length ≤ 100
      ∧ (processSystem w m).disk_rate <:+ w.disk_rate ++ [m.disk_rate])
    ∧ ((processSystem w m).network_rate.length = min (w.network_rate.length + 1) 100
      ∧ (processSystem w m).network_rate.length ≤ 100
      ∧ (processSystem w m).network_rate <:+ w.network_rate ++ [m.network_rate]) := by
  refine ⟨⟨?_, ?_, ?_⟩, ⟨?_, ?_, ?_⟩, ⟨?_, ?_, ?_⟩, ⟨?_, ?_, ?_⟩, ⟨?_, ?_, ?_⟩⟩ <;>
    simp only [processSystem] <;>
    first
      | exact updateWindow_length _ _
      | (rw [updateWindow_length]; omega)
      | exact updateWindow_suffix _ _

/-- `padList` always produces exactly the requested width. -/
theorem padList_length : ∀ (w n : Nat), (padList w n).length = w
  | 0, _ => rfl
  | w + 1, n => by
    rw [padList, List.length_append, padList_length w (n / 10)]
    rfl

/-- Digit characters decode to their digit. -/
theorem digitVal_digitChar : ∀ d < 10, digitVal (Nat.digitChar d) = d := by decide

/-- Appending one digit multiplies the decoded value by ten. -/
theorem digitsToNat_append_singleton (l : List Char) (c : Char) :
    digitsToNat (l ++ [c]) = 10 * digitsToNat l + digitVal c := by
  unfold digitsToNat
  rw [List.foldl_append]
  rfl

/-- Zero-padded printing round-trips for values within the width. -/
theorem digitsToNat_padList : ∀ (w n : Nat), n < 10 ^ w → digitsToNat (padList w n) = n
  | 0, n, h => by
    simp only [pow_zero, Nat.lt_one_iff] at h
    simp [padList, digitsToNat, h]
  | w + 1, n, h => by
    have h2 : n / 10 < 10 ^ w := by
      rw [Nat.div_lt_iff_lt_mul (by norm_num)]
      calc n < 10 ^ (w + 1) := h
        _ = 10 ^ w * 10 := pow_succ 10 w
    rw [padList, digitsToNat_append_singleton, digitsToNat_padList w (n / 10) h2,
      digitVal_digitChar (n % 10) (Nat.mod_lt n (by norm_num))]
    omega

/-- `padList` is injective within its width. -/
theorem padList_inj {w n m : Nat} (hn : n < 10 ^ w) (hm : m < 10 ^ w)
    (h : padList w n = padList w m) : n = m := by
  have := congrArg digitsToNat h
  rwa [digitsToNat_padList w n hn, digitsToNat_padList w m hm] at this

/-- The stamp has fifteen characters. -/
theorem stampChars_length (t : DateTime) : (stampChars t).length = 15 := by
  simp [stampChars, List.length_append, padList_length]

/-- The stamp characters determine the six second-precision fields. -/
theorem stampChars_inj {t u : DateTime} (ht : t.Valid) (hu : u.Valid)
    (h : stampChars t = stampChars u) : stampFields t = stampFields u := by
  obtain ⟨hty, htmo, htd, hth, htmi, hts⟩ := ht
  obtain ⟨huy, humo, hud, huh, humi, hus⟩ := hu
  unfold stampChars at h
  obtain ⟨hy, h⟩ := List.append_inj h (by rw [padList_length, padList_length])
  obtain ⟨hmo, h⟩ := List.append_inj h (by rw [padList_length, padList_length])
  obtain ⟨hd, h⟩ := List.append_inj h (by rw [padList_length, padList_length])
  injection h with _ h
  obtain ⟨hh, h⟩ := List.append_inj h (by rw [padList_length, padList_length])
  obtain ⟨hmi, hs⟩ := List.append_inj h (by rw [padList_length, padList_length])
  simp only [stampFields, Prod.mk.injEq]
  exact ⟨padList_inj hty huy hy, padList_inj htmo humo hmo, padList_inj htd hud hd,
    padList_inj hth huh hh, padList_inj htmi humi hmi, padList_inj hts hus hs⟩

/-- The stamp string is determined by, and determines, the six
second-precision fields of the instant. -/
theorem stamp_eq_iff {t u : DateTime} (ht : t.Valid) (hu : u.Valid) :
    stamp t = stamp u ↔ stampFields t = stampFields u := by
  constructor
  · intro h
    exact stampChars_inj ht hu (congrArg String.data h)
  · intro h
    simp only [stampFields, Prod.mk.injEq] at h
    obtain ⟨hy, hmo, hd, hh, hmi, hs⟩ := h
    unfold stamp stampChars
    rw [hy, hmo, hd, hh, hmi, hs]

/-- Filenames built around the stamp agree exactly when the stamps do. -/
theorem stamp_filename_eq_iff (pre suf : String) {t u : DateTime}
    (ht : t.Valid) (hu : u.Valid) :
    (pre ++ stamp t ++ suf = pre ++ stamp u ++ suf) ↔ stampFields t = stampFields u := by
  constructor
  · intro h
    have hdata := congrArg String.data h
    simp only [String.data_append] at hdata
    have hlen : (pre.data ++ (stamp t).data).length = (pre.data ++ (stamp u).data).length := by
      simp only [List.length_append]
      have e1 : (stamp t).data.length = 15 := stampChars_length t
      have e2 : (stamp u).data.length = 15 := stampChars_length u
      rw [e1, e2]
    obtain ⟨h1, -⟩ := List.append_inj hdata hlen
    have h2 : (stamp t).data = (stamp u).data := List.append_cancel_left h1
    exact stampChars_inj ht hu h2
  · intro h
    rw [(stamp_eq_iff ht hu).mpr h]

/-- C5 counterexample: two distinct `datetime.now()` instants within the
same second (differing only in microseconds) yield the same report path in
both variants; `open(path, 'w')` then truncates, so the second call
overwrites the first report instead of producing a new file. -/
theorem same_second_report_overwrite :
    ((⟨2026, 10, 12, 9, 30, 0, 0⟩ : DateTime) ≠ ⟨2026, 10, 12, 9, 30, 0, 500000⟩)
    ∧ analysisReportFilename "/tmp/patch_results" ⟨2026, 10, 12, 9, 30, 0, 0⟩
        = analysisReportFilename "/tmp/patch_results" ⟨2026, 10, 12, 9, 30, 0, 500000⟩
    ∧ monitorReportFilename "results" ⟨2026, 10, 12, 9, 30, 0, 0⟩
        = monitorReportFilename "results" ⟨2026, 10, 12, 9, 30, 0, 500000⟩ := by
  refine ⟨by decide, by decide, by decide⟩

/-- C5 (amended): each report path is stamped with the call's date-time to
second precision, and two calls produce distinct paths exactly when their
second-precision timestamps differ; calls within the same second reuse the
same path, which is then overwritten. -/
theorem report_filename_second_precision (dir : String) (t u : DateTime)
    (ht : t.Valid) (hu : u.Valid) :
    (analysisReportFilename dir t = analysisReportFilename dir u
      ↔ stampFields t = stampFields u)
    ∧ (monitorReportFilename dir t = monitorReportFilename dir u
      ↔ stampFields t = stampFields u) := by
  constructor
  · have := stamp_filename_eq_iff (dir ++ "/analysis_report_") ".json" ht hu
    simpa [analysisReportFilename, String.append_assoc] using this
  · have := stamp_filename_eq_iff (dir ++ "/monitor_report_") ".json" ht hu
    simpa [monitorReportFilename, String.append_assoc] using this

/-- C5 witness: two instants one second apart give different paths; the
same instant twice gives the same path. -/
theorem report_filename_second_precision_witness :
    ((analysisReportFilename "/tmp/patch_results" ⟨2026, 10, 12, 9, 30, 0, 0⟩
        = analysisReportFilename "/tmp/patch_results" ⟨2026, 10, 12, 9, 30, 1, 0⟩
      ↔ stampFields ⟨2026, 10, 12, 9, 30, 0, 0⟩ = stampFields ⟨2026, 10, 12, 9, 30, 1, 0⟩)
    ∧ (monitorReportFilename "/tmp/patch_results" ⟨2026, 10, 12, 9, 30, 0, 0⟩
        = monitorReportFilename "/tmp/patch_results" ⟨2026, 10, 12, 9, 30, 1, 0⟩
      ↔ stampFields ⟨2026, 10, 12, 9, 30, 0, 0⟩ = stampFields ⟨2026, 10, 12, 9, 30, 1, 0⟩)) :=
  report_filename_second_precision "/tmp/patch_results"
    ⟨2026, 10, 12, 9, 30, 0, 0⟩ ⟨2026, 10, 12, 9, 30, 1, 0⟩
    (by constructor <;> norm_num) (by constructor <;> norm_num)

/-- In both report builders, the emitted per-method entries are exactly
the methods with a non-empty series, in order. -/
theorem filterMap_guard_names {β : Type} (g : String × List ℚ → β)
    (patch : List (String × List ℚ)) :
    (patch.filterMap (fun p => if p.2.isEmpty then none else some (p.1, g p))).map
        (fun q => q.1)
      = (patch.filter (fun p => !p.2.isEmpty)).map (fun p => p.1) := by
  induction patch with
  | nil => rfl
  | cons p ps ih =>
    obtain ⟨name, ts⟩ := p
    cases ts with
    | nil => simpa [List.filterMap_cons, List.filter_cons] using ih
    | cons t ts2 => simpa [List.filterMap_cons, List.filter_cons] using ih

/-- The reachable dashboard states append CPU and memory samples together,
so the two windows are empty simultaneously. -/
theorem cpu_mem_guard {cpu mem : List ℚ} (hlen : cpu.length = mem.length) :
    cpu = [] ∨ mem ≠ [] := by
  cases cpu with
  | nil => exact Or.inl rfl
  | cons a l =>
    cases mem with
    | nil => simp at hlen
    | cons b k => simp

/-- Explicit form of `export_report` on states where the memory window is
non-empty whenever the CPU window is (the reachable states); in
particular no exception escapes. -/
theorem export_report_eq (cpu mem : List ℚ) (patch : List (String × List ℚ)) (now : String)
    (h : cpu = [] ∨ mem ≠ []) :
    export_report cpu mem patch now = some ⟨now,
      if cpu.isEmpty then none
      else some ⟨⟨meanD cpu, maxD cpu, minD cpu⟩, ⟨meanD mem, maxD mem, minD mem⟩⟩,
      perfList patch, recsOf (perfList patch)⟩ := by
  rcases h with rfl | hmem
  · rfl
  · by_cases hc : cpu.isEmpty
    · simp [export_report, hc]
    · have hm : mem.isEmpty = false := by
        cases mem with
        | nil => exact absurd rfl hmem
        | cons b k => rfl
      simp [export_report, mkSysStats, hc, hm]

/-- The recommendation list is empty exactly when no method has samples. -/
theorem recsOf_eq_nil_iff (perf : List (String × PerfStats)) :
    recsOf perf = [] ↔ perf = [] := by
  cases perf with
  | nil => simp [recsOf, pythonMinBy]
  | cons p ps => simp [recsOf, pythonMinBy]

/-- C2 counterexample: in the simple variant with no collected samples,
`save_report` still emits `cpu_average` and `memory_average` (with the
sentinel value `0`) instead of omitting the mean of the empty series. -/
theorem simple_report_empty_series_mean_present :
    (save_report [] [] [] [] "t").system_metrics.cpu_average = 0
    ∧ (save_report [] [] [] [] "t").system_metrics.memory_average = 0 :=
  ⟨rfl, rfl⟩

/-- C2 (amended): on reachable states (CPU and memory windows of equal
length) no report-building call divides by zero or lets an exception
escape; the dashboard omits the system summary when the CPU window is
empty and both variants omit every patch method whose series is empty;
the simple variant however always emits `cpu_average`/`memory_average`,
substituting `0` for an empty series rather than omitting the mean. -/
theorem empty_series_aggregation (timestamps : List String) (cpu mem : List ℚ)
    (patch : List (String × List ℚ)) (now : String)
    (hlen : cpu.length = mem.length) :
    (∃ r, export_report cpu mem patch now = some r
       ∧ (cpu = [] → r.system_metrics_summary = none)
       ∧ r.patch_performance.map (fun q => q.1)
           = (patch.filter (fun p => !p.2.isEmpty)).map (fun p => p.1))
    ∧ (save_report timestamps cpu mem patch now).patch_performance.map (fun q => q.1)
        = (patch.filter (fun p => !p.2.isEmpty)).map (fun p => p.1)
    ∧ (cpu = [] → (save_report timestamps cpu mem patch now).system_metrics.cpu_average = 0)
    ∧ (mem = [] → (save_report timestamps cpu mem patch now).system_metrics.memory_average = 0) := by
  refine ⟨⟨_, export_report_eq cpu mem patch now (cpu_mem_guard hlen), ?_, ?_⟩, ?_, ?_, ?_⟩
  · intro hcpu; subst hcpu; rfl
  · show (perfList patch).map _ = _
    unfold perfList
    exact filterMap_guard_names _ patch
  · show ((patch.filterMap _).map _ : List String) = _
    exact filterMap_guard_names _ patch
  · intro hcpu; subst hcpu; rfl
  · intro hmem; subst hmem; simp [save_report]

/-- C2 witness: the empty state plus one method with an empty series. -/
theorem empty_series_aggregation_witness :
    (∃ r, export_report [] [] [("git", [])] "t" = some r
       ∧ (([] : List ℚ) = [] → r.system_metrics_summary = none)
       ∧ r.patch_performance.map (fun q => q.1)
           = (([("git", ([] : List ℚ))]).filter (fun p => !p.2.isEmpty)).map (fun p => p.1))
    ∧ (save_report [] [] [] [("git", [])] "t").patch_performance.map (fun q => q.1)
        = (([("git", ([] : List ℚ))]).filter (fun p => !p.2.isEmpty)).map (fun p => p.1)
    ∧ (([] : List ℚ) = [] →
        (save_report [] [] [] [("git", [])] "t").system_metrics.cpu_average = 0)
    ∧ (([] : List ℚ) = [] →
        (save_report [] [] [] [("git", [])] "t").system_metrics.memory_average = 0) :=
  empty_series_aggregation [] [] [] [("git", [])] "t" rfl

/-- C9: on reachable states, `export_report` always returns a report (its
four fields model the four top-level keys); the system summary is the
empty mapping when no CPU sample exists, and the recommendation list is
non-empty exactly when `patch_performance` is, in which case it holds
exactly one recommendation naming the best method. -/
theorem export_report_shape (cpu mem : List ℚ) (patch : List (String × List ℚ)) (now : String)
    (hlen : cpu.length = mem.length) :
    ∃ r, export_report cpu mem patch now = some r
      ∧ r.timestamp = now
      ∧ (cpu = [] → r.system_metrics_summary = none)
      ∧ (r.recommendations = [] ↔ r.patch_performance = [])
      ∧ (r.patch_performance ≠ [] →
          ∃ best, pythonMinBy (fun q => q.2.average) r.patch_performance = some best
            ∧ r.recommendations = [recString best.1 best.2.average]) := by
  refine ⟨_, export_report_eq cpu mem patch now (cpu_mem_guard hlen), rfl, ?_, ?_, ?_⟩
  · intro hcpu; subst hcpu; rfl
  · show recsOf (perfList patch) = [] ↔ perfList patch = []
    exact recsOf_eq_nil_iff _
  · intro hne
    show ∃ best, pythonMinBy (fun q => q.2.average) (perfList patch) = some best
      ∧ recsOf (perfList patch) = [recString best.1 best.2.average]
    cases hp : pythonMinBy (fun q => q.2.average) (perfList patch) with
    | none =>
      cases hperf : perfList patch with
      | nil => exact absurd hperf hne
      | cons p ps =>
        rw [hperf] at hp
        simp [pythonMinBy] at hp
    | some best => exact ⟨best, rfl, by simp [recsOf, hp]⟩

/-- C9 witness: one CPU/memory sample each and one empty method. -/
theorem export_report_shape_witness :
    ∃ r, export_report [50] [60] [("quilt", [1, 2, 3]), ("script", [])] "ts" = some r
      ∧ r.timestamp = "ts"
      ∧ (([50] : List ℚ) = [] → r.system_metrics_summary = none)
      ∧ (r.recommendations = [] ↔ r.patch_performance = [])
      ∧ (r.patch_performance ≠ [] →
          ∃ best, pythonMinBy (fun q => q.2.average) r.patch_performance = some best
            ∧ r.recommendations = [recString best.1 best.2.average]) :=
  export_report_shape [50] [60] [("quilt", [1, 2, 3]), ("script", [])] "ts" rfl

/-- C7: for `quilt=[1,2,3], git=[5], script=[]` the exported report holds
mean 2.0 for quilt, mean 5.0 for git, omits script, and recommends quilt;
`update_summary` likewise names quilt the best performing method. -/
theorem aggregate_example_quilt_git_script :
    export_report [] [] [("quilt", [1, 2, 3]), ("git", [5]), ("script", [])] "t"
      = some ⟨"t", none,
          [("quilt", ⟨2, 1, 3, 2/3, 3⟩), ("git", ⟨5, 5, 5, 0, 1⟩)],
          ["Use quilt method for optimal performance (avg: 2.00s)"]⟩
    ∧ bestMethodSummary [("quilt", [1, 2, 3]), ("git", [5]), ("script", [])] = some "quilt" :=
  ⟨by decide, by decide⟩

/-- Python's `min(..., key=f)` keeps the current best unless a strictly
smaller key appears: the fold returns either the start element (then
minimal for the whole list) or a list element that is minimal and
strictly below everything before it. -/
theorem foldl_pickMin_spec {α : Type} (f : α → ℚ) :
    ∀ (xs : List α) (x : α),
      (xs.foldl (fun b y => if f y < f b then y else b) x = x ∧ ∀ b ∈ xs, f x ≤ f b)
      ∨ (∃ l₁ l₂, xs = l₁ ++ xs.foldl (fun b y => if f y < f b then y else b) x :: l₂
          ∧ f (xs.foldl (fun b y => if f y < f b then y else b) x) < f x
          ∧ (∀ b ∈ xs, f (xs.foldl (fun b y => if f y < f b then y else b) x) ≤ f b)
          ∧ ∀ b ∈ l₁, f (xs.foldl (fun b y => if f y < f b then y else b) x) < f b)
  | [], x => Or.inl ⟨rfl, by simp⟩
  | y :: ys, x => by
    rw [List.foldl_cons]
    by_cases hyx : f y < f x
    · rw [if_pos hyx]
      rcases foldl_pickMin_spec f ys y with ⟨hr, hmin⟩ | ⟨l₁, l₂, hdec, hlt, hmin, hfirst⟩
      · right
        refine ⟨[], ys, ?_, ?_, ?_, ?_⟩
        · rw [hr]; rfl
        · rw [hr]; exact hyx
        · intro b hb
          rw [hr]
          rcases List.mem_cons.mp hb with rfl | hb2
          · exact le_refl _
          · exact hmin b hb2
        · intro b hb; cases hb
      · right
        refine ⟨y :: l₁, l₂, ?_, lt_trans hlt hyx, ?_, ?_⟩
        · rw [List.cons_append]
          exact congrArg (y :: ·) hdec
        · intro b hb
          rcases List.mem_cons.mp hb with rfl | hb2
          · exact le_of_lt hlt
          · exact hmin b hb2
        · intro b hb
          rcases List.mem_cons.mp hb with rfl | hb2
          · exact hlt
          · exact hfirst b hb2
    · rw [if_neg hyx]
      have hxy : f x ≤ f y := le_of_not_lt hyx
      rcases foldl_pickMin_spec f ys x with ⟨hr, hmin⟩ | ⟨l₁, l₂, hdec, hlt, hmin, hfirst⟩
      · left
        refine ⟨hr, ?_⟩
        intro b hb
        rcases List.mem_cons.mp hb with rfl | hb2
        · exact hxy
        · exact hmin b hb2
      · right
        refine ⟨y :: l₁, l₂, ?_, hlt, ?_, ?_⟩
        · rw [List.cons_append]
          exact congrArg (y :: ·) hdec
        · intro b hb
          rcases List.mem_cons.mp hb with rfl | hb2
          · exact le_trans (le_of_lt hlt) hxy
          · exact hmin b hb2
        · intro b hb
          rcases List.mem_cons.mp hb with rfl | hb2
          · exact lt_of_lt_of_le hlt hxy
          · exact hfirst b hb2

/-- `pythonMinBy` on a non-empty list returns the first element attaining
the minimal key. -/
theorem pythonMinBy_spec {α : Type} (f : α → ℚ) (l : List α) (hl : l ≠ []) :
    ∃ l₁ a l₂, l = l₁ ++ a :: l₂ ∧ pythonMinBy f l = some a
      ∧ (∀ b ∈ l, f a ≤ f b) ∧ ∀ b ∈ l₁, f a < f b := by
  cases l with
  | nil => exact absurd rfl hl
  | cons x xs =>
    rcases foldl_pickMin_spec f xs x with ⟨hr, hmin⟩ | ⟨l₁, l₂, hdec, hlt, hmin, hfirst⟩
    · refine ⟨[], x, xs, rfl, ?_, ?_, ?_⟩
      · show some (xs.foldl (fun b y => if f y < f b then y else b) x) = some x
        rw [hr]
      · intro b hb
        rcases List.mem_cons.mp hb with rfl | hb2
        · exact le_refl _
        · exact hmin b hb2
      · intro b hb; cases hb
    · refine ⟨x :: l₁, xs.foldl (fun b y => if f y < f b then y else b) x, l₂, ?_, rfl, ?_, ?_⟩
      · rw [List.cons_append]
        exact congrArg (x :: ·) hdec
      · intro b hb
        rcases List.mem_cons.mp hb with rfl | hb2
        · exact le_of_lt hlt
        · exact hmin b hb2
      · intro b hb
        rcases List.mem_cons.mp hb with rfl | hb2
        · exact hlt
        · exact hfirst b hb2

/-- The first-minimum fold commutes with mapping the elements. -/
theorem foldl_pickMin_map {α β : Type} (f : β → ℚ) (g : α → β) :
    ∀ (xs : List α) (x : α),
      (xs.map g).foldl (fun b y => if f y < f b then y else b) (g x)
        = g (xs.foldl (fun b y => if f (g y) < f (g b) then y else b) x)
  | [], _ => rfl
  | y :: ys, x => by
    simp only [List.map_cons, List.foldl_cons]
    rw [← apply_ite g]
    exact foldl_pickMin_map f g ys (if f (g y) < f (g x) then y else x)

/-- `pythonMinBy` commutes with mapping the elements. -/
theorem pythonMinBy_map {α β : Type} (f : β → ℚ) (g : α → β) (l : List α) :
    pythonMinBy f (l.map g) = (pythonMinBy (fun a => f (g a)) l).map g := by
  cases l with
  | nil => rfl
  | cons x xs =>
    simp only [List.map_cons, pythonMinBy, Option.map_some']
    rw [foldl_pickMin_map]

/-- `patch_performance` is the non-empty methods mapped to their stats. -/
theorem perfList_eq_filter_map (patch : List (String × List ℚ)) :
    perfList patch = (patch.filter (fun p => !p.2.isEmpty)).map
      (fun p => (p.1, (⟨meanD p.2, minD p.2, maxD p.2, varD p.2, p.2.length⟩ : PerfStats))) := by
  induction patch with
  | nil => rfl
  | cons p ps ih =>
    obtain ⟨name, ts⟩ := p
    cases ts with
    | nil => simpa [perfList, List.filterMap_cons, List.filter_cons] using ih
    | cons t ts2 => simpa [perfList, List.filterMap_cons, List.filter_cons] using ih

/-- `update_summary`'s best method is the first minimum of the per-method
means over the non-empty methods. -/
theorem bestMethodSummary_eq (patch : List (String × List ℚ)) :
    bestMethodSummary patch
      = (pythonMinBy (fun p => meanD p.2) (patch.filter (fun p => !p.2.isEmpty))).map
          (fun p => p.1) := by
  unfold bestMethodSummary
  dsimp only
  rw [pythonMinBy_map (fun q : String × ℚ => q.2) (fun p : String × List ℚ => (p.1, meanD p.2))]
  rw [Option.map_map]
  rfl

/-- `export_report`'s best method agrees with `update_summary`'s. -/
theorem exportBest_eq (patch : List (String × List ℚ)) :
    (pythonMinBy (fun q => q.2.average) (perfList patch)).map (fun q => q.1)
      = (pythonMinBy (fun p => meanD p.2) (patch.filter (fun p => !p.2.isEmpty))).map
          (fun p => p.1) := by
  rw [perfList_eq_filter_map,
    pythonMinBy_map (fun q : String × PerfStats => q.2.average)
      (fun p : String × List ℚ =>
        (p.1, (⟨meanD p.2, minD p.2, maxD p.2, varD p.2, p.2.length⟩ : PerfStats)))]
  rw [Option.map_map]
  rfl

/-- C8: on every non-empty collection of timing series, the best method of
`update_summary` is the argmin of the per-method means over the methods
with at least one sample, ties broken by insertion order (the first-seen
method wins: every earlier candidate has a strictly greater mean), and
`export_report`'s recommended method is the same. -/
theorem best_method_argmin_first_seen (patch : List (String × List ℚ))
    (h : patch.filter (fun p => !p.2.isEmpty) ≠ []) :
    ∃ l₁ a l₂, patch.filter (fun p => !p.2.isEmpty) = l₁ ++ a :: l₂
      ∧ bestMethodSummary patch = some a.1
      ∧ (∀ b ∈ patch.filter (fun p => !p.2.isEmpty), meanD a.2 ≤ meanD b.2)
      ∧ (∀ b ∈ l₁, meanD a.2 < meanD b.2)
      ∧ (pythonMinBy (fun q => q.2.average) (perfList patch)).map (fun q => q.1) = some a.1 := by
  obtain ⟨l₁, a, l₂, hdec, hmin, hle, hlt⟩ :=
    pythonMinBy_spec (fun p => meanD p.2) (patch.filter (fun p => !p.2.isEmpty)) h
  refine ⟨l₁, a, l₂, hdec, ?_, hle, hlt, ?_⟩
  · rw [bestMethodSummary_eq, hmin]
    rfl
  · rw [exportBest_eq, hmin]
    rfl

/-- C8 witness: quilt and git tie with mean 2; the first-seen method quilt
is selected in both places. -/
theorem best_method_argmin_first_seen_witness :
    ∃ l₁ a l₂,
      ([("quilt", [2]), ("git", [2]), ("script", [])] : List (String × List ℚ)).filter
          (fun p => !p.2.isEmpty) = l₁ ++ a :: l₂
      ∧ bestMethodSummary [("quilt", [2]), ("git", [2]), ("script", [])] = some a.1
      ∧ (∀ b ∈ ([("quilt", [2]), ("git", [2]), ("script", [])] : List (String × List ℚ)).filter
            (fun p => !p.2.isEmpty), meanD a.2 ≤ meanD b.2)
      ∧ (∀ b ∈ l₁, meanD a.2 < meanD b.2)
      ∧ (pythonMinBy (fun q => q.2.average)
            (perfList [("quilt", [2]), ("git", [2]), ("script", [])])).map (fun q => q.1)
          = some a.1 :=
  best_method_argmin_first_seen [("quilt", [2]), ("git", [2]), ("script", [])] (by decide)
